import Mathlib

set_option autoImplicit false

/-!
Shallow embedding of `pkg/operator/operator.go` (dapr operator bootstrap):
the restart budget of the Dapr Watchdog, the certificate-chain loader
`loadCertChain`, the component change notifier `syncComponent`, the operator
constructor `NewOperator`, and the startup sequence of `operator.Run`.
Collaborators whose code is outside the source slice (the watchdog tick loop,
`credentials.LoadFromDisk`, `fswatcher.Watch`, the API server) are modelled
from the specification, as marked in the individual doc comments.
-/

namespace DaprOperator

/-! ## Definitions: Restart Watchdog budget -/

/-- Length of the rate-limit window: one minute, counted in seconds. -/
def windowLen : Nat := 60

/-- Modelled from the spec: the watchdog tick loop and the Restart Budget live
in `watchdog.go`, which is not part of the source slice; `operator.go` (lines
110-114) only constructs the `DaprWatchdog` struct with fields `client`,
`interval` and `maxRestartsPerMin`. Following the data model of the spec, the
Restart Budget records the issue times (in seconds) of all restart actions;
the budget check is serialized (a single mutator at a time), which the
sequential fold below reflects. -/
structure RestartBudget where
  issued : List Nat
deriving DecidableEq

/-- Number of already-issued restart actions that still count against the
budget at time `now`: those with `now < t + windowLen`, i.e. issued within the
minute ending at `now`. -/
def recentCount (now : Nat) (issued : List Nat) : Nat :=
  (issued.filter (fun t => now < t + windowLen)).length

/-- One attempt to spend a unit of the Restart Budget at time `now`: the
restart action is issued exactly when fewer than `maxRestartsPerMin` actions
were issued within the minute ending at `now`. -/
def trySpend (maxRestartsPerMin now : Nat) (b : RestartBudget) : Bool × RestartBudget :=
  if recentCount now b.issued < maxRestartsPerMin then
    (true, ⟨now :: b.issued⟩)
  else
    (false, b)

/-- One watchdog tick at time `now` that evaluates `eligible` many eligible
targets, attempting to spend one budget unit per target. -/
def tick (maxRestartsPerMin now eligible : Nat) (b : RestartBudget) : RestartBudget :=
  match eligible with
  | 0 => b
  | Nat.succ k => tick maxRestartsPerMin now k (trySpend maxRestartsPerMin now b).2

/-- A full watchdog execution: a sequence of ticks, each given as a pair of
(tick time, number of eligible targets found on that tick). -/
def runTicks (maxRestartsPerMin : Nat) : List (Nat × Nat) → RestartBudget → RestartBudget
  | [], b => b
  | (now, elig) :: rest, b => runTicks maxRestartsPerMin rest (tick maxRestartsPerMin now elig b)

/-- Number of issued restart actions whose time falls in the one-minute window
`[w, w + windowLen)`. -/
def windowCount (w : Nat) (issued : List Nat) : Nat :=
  (issued.filter (fun t => w ≤ t ∧ t < w + windowLen)).length

/-- Invariant carried through the watchdog execution: every issued time is at
most the current time bound, and every one-minute window holds at most
`maxRestartsPerMin` issued actions. -/
def BudgetInv (maxRestartsPerMin bound : Nat) (issued : List Nat) : Prop :=
  (∀ t ∈ issued, t ≤ bound) ∧ ∀ w, windowCount w issued ≤ maxRestartsPerMin

/-! ## Definitions: certificate chain loading (`loadCertChain`) -/

/-- Contents of a file (a byte blob). -/
abbrev Blob := List Nat

/-- The credential paths, read-only for the lifetime of the process
(`credentials.TLSCredentials`, attached in `prepareConfig`). -/
structure Credentials where
  rootCertPath : String
  certPath : String
  keyPath : String
deriving DecidableEq

/-- A fully loaded certificate chain: root certificate, leaf certificate and
private key blobs. -/
structure CertChain where
  rootCert : Blob
  cert : Blob
  privateKey : Blob
deriving DecidableEq

/-- A filesystem snapshot: maps a path to the contents of the file there, when
the file is readable. -/
def FileSystem : Type := String → Option Blob

/-- Modelled from the spec: `credentials.LoadFromDisk` (package
`pkg/credentials`, not in the source slice) reads the three files and succeeds
exactly when all three reads succeed, returning the full triple. -/
def LoadFromDisk (fs : FileSystem) (rootCertPath certPath keyPath : String) :
    Option CertChain :=
  match fs rootCertPath, fs certPath, fs keyPath with
  | some r, some c, some k => some ⟨r, c, k⟩
  | some _, some _, none => none
  | some _, none, _ => none
  | none, _, _ => none

/-- Primitive actions performed by `loadCertChain`, in program order. -/
inductive CertAct
  | watchStarted
  | attempt (t : Nat) (ok : Bool)
  | waitEvent (t : Nat)
  | watchCancelled
  | watchExpired
deriving DecidableEq

/-- Outcome of `loadCertChain`: either the loaded chain together with the time
of the successful read, or fatal process termination at the watch deadline. -/
inductive LoadOutcome
  | success (chain : CertChain) (t : Nat)
  | fatalTimeout (t : Nat)
deriving DecidableEq

/-- The retry loop of `loadCertChain` (operator.go lines 191-201): attempt a
`LoadFromDisk` at the current time; on success break out of the loop; on
failure block on the next filesystem event and retry at its time. A filesystem
event at or after the watch deadline never arrives: the watch context expires
first, the watcher goroutine returns (`fswatcher.Watch` selects on the
context), and the goroutine terminates the process fatally (operator.go lines
182-188). The first component is the action trace, the second the outcome. -/
def loadLoop (fsAt : Nat → FileSystem) (cr : Credentials) (deadline : Nat) :
    Nat → List Nat → List CertAct × LoadOutcome
  | now, [] =>
    match LoadFromDisk (fsAt now) cr.rootCertPath cr.certPath cr.keyPath with
    | some chain => ([CertAct.attempt now true, CertAct.watchCancelled],
                     LoadOutcome.success chain now)
    | none => ([CertAct.attempt now false, CertAct.watchExpired],
               LoadOutcome.fatalTimeout deadline)
  | now, t :: rest =>
    match LoadFromDisk (fsAt now) cr.rootCertPath cr.certPath cr.keyPath with
    | some chain => ([CertAct.attempt now true, CertAct.watchCancelled],
                     LoadOutcome.success chain now)
    | none =>
      if t < deadline then
        (CertAct.attempt now false :: CertAct.waitEvent t ::
           (loadLoop fsAt cr deadline t rest).1,
         (loadLoop fsAt cr deadline t rest).2)
      else
        ([CertAct.attempt now false, CertAct.watchExpired],
         LoadOutcome.fatalTimeout deadline)

/-- Embedding of `operator.loadCertChain` (operator.go lines 173-206): the
filesystem watch goroutine is started unconditionally before the first read
attempt, with a deadline (one minute in the code, parametrised here). Then the
retry loop runs; on success `watchCancel()` releases the watch, and if the
deadline expires with no successful read, the watcher goroutine terminates the
process fatally. -/
def loadCertChain (fsAt : Nat → FileSystem) (cr : Credentials) (events : List Nat)
    (deadline : Nat) : List CertAct × LoadOutcome :=
  (CertAct.watchStarted :: (loadLoop fsAt cr deadline 0 events).1,
   (loadLoop fsAt cr deadline 0 events).2)

/-- The watch is released exactly when either the success path ran
`watchCancel` or the watch context expired, in which case the watcher
goroutine returned and terminated the process. -/
def watchReleased (tr : List CertAct) : Prop :=
  CertAct.watchCancelled ∈ tr ∨ CertAct.watchExpired ∈ tr

instance (tr : List CertAct) : Decidable (watchReleased tr) := by
  unfold watchReleased; infer_instance

/-- Time at which a load outcome was produced. -/
def loadTime : LoadOutcome → Nat
  | LoadOutcome.success _ t => t
  | LoadOutcome.fatalTimeout t => t

/-- The chain a load outcome hands over, if any. -/
def loadedChain : LoadOutcome → Option CertChain
  | LoadOutcome.success ch _ => some ch
  | LoadOutcome.fatalTimeout _ => none

/-! ## Definitions: components and the change notifier -/

/-- A Component object, identified by (namespace, name); the specification
payload is opaque to this core. -/
structure Component where
  nspace : String
  name : String
  payload : String
deriving DecidableEq

/-- A dynamically typed callback payload as delivered by the informer (the Go
`any`): either a Component pointer, or a value of some other kind. -/
inductive CbObj
  | component (c : Component)
  | otherKind (kind : String)
deriving DecidableEq

/-- Observable actions of the change notifier. -/
inductive NotifyAct
  | logDebugObserved (nspace name : String)
  | onComponentUpdated (c : Component)
deriving DecidableEq

/-- Embedding of `operator.syncComponent` (operator.go lines 165-171): the
two-valued type assertion never panics; on a well-typed Component the function
logs at debug level and forwards the object to the API server. The
if-statement has no else branch, so a type-mismatched payload produces no
action at all. -/
def syncComponent (obj : CbObj) : List NotifyAct :=
  match obj with
  | CbObj.component c => [NotifyAct.logDebugObserved c.nspace c.name,
                          NotifyAct.onComponentUpdated c]
  | CbObj.otherKind _ => []

/-- The UpdateFunc registered in NewOperator (operator.go lines 148-150): it
discards the old object and calls syncComponent on the new object only. -/
def updateFunc (_oldObj newObj : CbObj) : List NotifyAct :=
  syncComponent newObj

/-! ## Definitions: NewOperator construction -/

/-- Operator options (operator.go lines 53-63); durations are in seconds. -/
structure Options where
  config : String
  certChainPath : String
  leaderElection : Bool
  watchdogEnabled : Bool
  watchdogInterval : Nat
  watchdogMaxRestartsPerMin : Nat
  watchNamespace : String
  serviceReconcilerEnabled : Bool
  argoRolloutServiceReconcilerEnabled : Bool
deriving DecidableEq

/-- The manager options NewOperator passes to `ctrl.NewManager` (operator.go
lines 94-100). -/
structure ManagerOptions where
  metricsBindAddress : String
  leaderElection : Bool
  leaderElectionID : String
  watchNamespace : String
deriving DecidableEq

/-- The watchdog runnable as constructed in operator.go lines 110-114. The
field `needsLeaderElection` is modelled from the spec: `watchdog.go` (not in
the source slice) declares that the watchdog always requires leader election
(spec 4.4). -/
structure WatchdogRunnable where
  interval : Nat
  maxRestartsPerMin : Nat
  needsLeaderElection : Bool
deriving DecidableEq

/-- The observable result of constructing the operator. -/
structure OperatorConstruction where
  mgrOptions : ManagerOptions
  watchdog : Option WatchdogRunnable
  warnings : List String
  infoLogs : List String
deriving DecidableEq

/-- Embedding of the configuration part of `NewOperator` (operator.go lines
89-121): the manager is created with `LeaderElection: opts.LeaderElection`
unchanged; when the watchdog is enabled and leader election is off, only a
warning is logged, and the watchdog runnable is added to the manager. -/
def newOperator (opts : Options) : OperatorConstruction :=
  let mgrOptions : ManagerOptions :=
    { metricsBindAddress := "0"
      leaderElection := opts.leaderElection
      leaderElectionID := "operator.dapr.io"
      watchNamespace := opts.watchNamespace }
  if opts.watchdogEnabled then
    { mgrOptions := mgrOptions
      watchdog := some { interval := opts.watchdogInterval
                         maxRestartsPerMin := opts.watchdogMaxRestartsPerMin
                         needsLeaderElection := true }
      warnings :=
        if opts.leaderElection then []
        else ["Leadership election is forcibly enabled when the Dapr Watchdog is enabled"]
      infoLogs := [] }
  else
    { mgrOptions := mgrOptions
      watchdog := none
      warnings := []
      infoLogs := ["Dapr Watchdog is not enabled"] }

/-- Whether the constructed watchdog is effectively gated by leader election.
controller-runtime starts leader-election runnables immediately when the
manager has leader election disabled (it treats not having leader election
enabled the same as being elected), so the gate is effective exactly when the
runnable requires it and the manager option is set. -/
def watchdogElectionGated (c : OperatorConstruction) : Bool :=
  match c.watchdog with
  | none => true
  | some wd => wd.needsLeaderElection && c.mgrOptions.leaderElection

/-- The failing input for claim C7: watchdog enabled, leader election off. -/
def failingOpts : Options :=
  { config := "daprsystem"
    certChainPath := "/certs"
    leaderElection := false
    watchdogEnabled := true
    watchdogInterval := 10
    watchdogMaxRestartsPerMin := 2
    watchNamespace := ""
    serviceReconcilerEnabled := false
    argoRolloutServiceReconcilerEnabled := false }

/-! ## Definitions: the startup sequence of `operator.Run` -/

/-- Events of the startup sequence of `operator.Run`. -/
inductive REv
  | mgrStarted
  | cacheSynced
  | fatalCacheSync
  | configLoaded
  | fatalConfig
  | certLoaded (chain : CertChain)
  | fatalCertTimeout
  | healthzStarted
  | apiServerRun (chain : CertChain)
  | apiListenersBound
  | readyMarked
deriving DecidableEq

/-- Environment of one execution of `operator.Run`: the result of the cache
sync wait, whether configuration loading succeeds, and the filesystem /
credential paths / watch events seen by `loadCertChain`. -/
structure RunEnv where
  syncResult : Bool
  configOk : Bool
  fsAt : Nat → FileSystem
  creds : Credentials
  fsEvents : List Nat

/-- Outcome of the certificate load performed by `Run` (the code uses a fixed
one-minute watch deadline). -/
def certOutcome (env : RunEnv) : LoadOutcome :=
  (loadCertChain env.fsAt env.creds env.fsEvents 60).2

/-- Modelled from the spec: the API server collaborator
(`pkg/operator/api`, not in the source slice) binds its listeners and only
then invokes the readiness callback it was handed; the callback (operator.go
lines 237-240) marks the health server ready. -/
def apiServerRunEvents (chain : CertChain) : List REv :=
  [REv.apiServerRun chain, REv.apiListenersBound, REv.readyMarked]

/-- Embedding of `operator.Run` (operator.go lines 208-243) as the ordered
event trace of the main goroutine: start the manager in a goroutine, block on
`WaitForCacheSync` (fatal on failure), load configuration (fatal on failure),
load the certificate chain (fatal on watch timeout), start the health server,
then hand the loaded chain and the readiness callback to the blocking
`apiServer.Run`. -/
def runTrace (env : RunEnv) : List REv :=
  REv.mgrStarted ::
    (if env.syncResult then
      REv.cacheSynced ::
        (if env.configOk then
          REv.configLoaded ::
            (match certOutcome env with
             | LoadOutcome.success chain _ =>
                 REv.certLoaded chain :: REv.healthzStarted :: apiServerRunEvents chain
             | LoadOutcome.fatalTimeout _ => [REv.fatalCertTimeout])
        else [REv.fatalConfig])
    else [REv.fatalCacheSync])

/-! ## Definitions: interleaving of `Run` with the informer dispatch thread -/

/-- Program counter of the main goroutine of `operator.Run` during startup. -/
inductive RunPC
  | beforeStart
  | waitingSync
  | afterSync
deriving DecidableEq

/-- A recorded `OnComponentUpdated` delivery: the component, paired with
whether `WaitForCacheSync` had already returned at delivery time. -/
structure Delivery where
  comp : Component
  afterSyncReturned : Bool
deriving DecidableEq

/-- State of the interleaved execution of the main goroutine of `operator.Run`
and the informer dispatch thread. -/
structure SysState where
  pc : RunPC
  mgrStarted : Bool
  cacheSynced : Bool
  deliveries : List Delivery
deriving DecidableEq

/-- Initial state: `NewOperator` has run (the event handler is registered),
`Run` has not yet started the manager. -/
def initState : SysState :=
  { pc := RunPC.beforeStart, mgrStarted := false, cacheSynced := false, deliveries := [] }

/-- Interleaved actions: the main goroutine launches the manager and returns
from `WaitForCacheSync`; the cache completes its initial bootstrap internally;
the informer dispatch thread delivers an add callback. The handler was
registered in `NewOperator`, before `Run`; per the collaborator contract (spec
4.2) callbacks run on the dispatch thread of the cache once the machinery has
been started, concurrently with the main goroutine. -/
inductive SysAct
  | startMgr
  | syncCompletes
  | syncReturns
  | deliverAdd (obj : CbObj)
deriving DecidableEq

/-- One interleaved step; `none` when the action is not enabled in `s`. -/
def stepSys (s : SysState) (a : SysAct) : Option SysState :=
  match a with
  | SysAct.startMgr =>
      if s.pc = RunPC.beforeStart then
        some { s with pc := RunPC.waitingSync, mgrStarted := true }
      else none
  | SysAct.syncCompletes =>
      if s.mgrStarted = true ∧ s.cacheSynced = false then
        some { s with cacheSynced := true }
      else none
  | SysAct.syncReturns =>
      if s.pc = RunPC.waitingSync ∧ s.cacheSynced = true then
        some { s with pc := RunPC.afterSync }
      else none
  | SysAct.deliverAdd obj =>
      if s.mgrStarted = true then
        match obj with
        | CbObj.component c =>
            some { s with deliveries :=
              s.deliveries ++ [{ comp := c, afterSyncReturned := decide (s.pc = RunPC.afterSync) }] }
        | CbObj.otherKind _ => some s
      else none

/-- Execution of a list of interleaved actions from a state. -/
def execSys : SysState → List SysAct → Option SysState
  | s, [] => some s
  | s, a :: rest =>
    match stepSys s a with
    | some s' => execSys s' rest
    | none => none

/-! ## Definitions: concrete instances used by witnesses and counterexamples -/

/-- The credential paths of the concrete scenarios. -/
def crDefault : Credentials :=
  { rootCertPath := "/certs/ca.pem", certPath := "/certs/cert.pem", keyPath := "/certs/key.pem" }

/-- A filesystem on which all three credential files are readable at all
times. -/
def fsAll : Nat → FileSystem := fun _ p =>
  if p = "/certs/ca.pem" then some [1]
  else if p = "/certs/cert.pem" then some [2]
  else if p = "/certs/key.pem" then some [3]
  else none

/-- A filesystem on which no file is ever readable. -/
def fsNone : Nat → FileSystem := fun _ _ => none

/-- A filesystem on which the credential files become readable at time 10. -/
def fsLate : Nat → FileSystem := fun n p => if 10 ≤ n then fsAll 0 p else none

/-- The chain loaded from `fsAll` or `fsLate`. -/
def chainC : CertChain := { rootCert := [1], cert := [2], privateKey := [3] }

/-- A concrete component. -/
def compC : Component := { nspace := "default", name := "comp", payload := "spec" }

/-- Run environment: sync and configuration succeed, files present from the
start. -/
def envOk : RunEnv :=
  { syncResult := true, configOk := true, fsAt := fsAll, creds := crDefault, fsEvents := [] }

/-- Run environment: cache sync fails. -/
def envFatalSync : RunEnv :=
  { syncResult := false, configOk := true, fsAt := fsAll, creds := crDefault, fsEvents := [] }

/-- Run environment: cache sync succeeds, configuration loading fails. -/
def envFatalConfig : RunEnv :=
  { syncResult := true, configOk := false, fsAt := fsAll, creds := crDefault, fsEvents := [] }

/-- Run environment: sync and configuration succeed, but the credential files
never appear, so the certificate load times out at the one-minute deadline. -/
def envCertTimeout : RunEnv :=
  { syncResult := true, configOk := true, fsAt := fsNone, creds := crDefault, fsEvents := [] }

/-- Run environment: files appear at time 10, one watch event at time 10. -/
def envLate : RunEnv :=
  { syncResult := true, configOk := true, fsAt := fsLate, creds := crDefault, fsEvents := [10] }

/-! ## Theorems: helper lemmas -/

theorem length_filter_mono {l : List Nat} {p q : Nat → Bool}
    (h : ∀ t, p t = true → q t = true) :
    (l.filter p).length ≤ (l.filter q).length := by
  induction l with
  | nil => simp
  | cons a l ih =>
    simp only [List.filter_cons]
    by_cases hp : p a = true
    · rw [if_pos hp, if_pos (h a hp)]
      simpa using Nat.succ_le_succ ih
    · rw [if_neg hp]
      split
      · exact Nat.le_succ_of_le ih
      · exact ih

theorem budgetInv_mono {maxR b b' : Nat} {issued : List Nat}
    (h : BudgetInv maxR b issued) (hb : b ≤ b') : BudgetInv maxR b' issued :=
  ⟨fun t ht => Nat.le_trans (h.1 t ht) hb, h.2⟩

theorem trySpend_inv {maxR now : Nat} {b : RestartBudget}
    (h : BudgetInv maxR now b.issued) :
    BudgetInv maxR now (trySpend maxR now b).2.issued := by
  unfold trySpend
  split
  · refine ⟨?_, ?_⟩
    · intro t ht
      rcases List.mem_cons.mp ht with h1 | h2
      · exact Nat.le_of_eq h1
      · exact h.1 t h2
    · intro w
      unfold windowCount
      by_cases hw : w ≤ now ∧ now < w + windowLen
      · rw [List.filter_cons_of_pos]
        · have hmono : windowCount w b.issued ≤ recentCount now b.issued := by
            apply length_filter_mono
            intro t ht
            simp only [decide_eq_true_eq] at ht ⊢
            omega
          have hlt : recentCount now b.issued < maxR := by assumption
          have : windowCount w b.issued < maxR := Nat.lt_of_le_of_lt hmono hlt
          simpa [windowCount] using this
        · simpa using hw
      · rw [List.filter_cons_of_neg]
        · exact h.2 w
        · simpa using hw
  · exact h

theorem tick_inv {maxR now : Nat} (eligible : Nat) {b : RestartBudget}
    (h : BudgetInv maxR now b.issued) :
    BudgetInv maxR now (tick maxR now eligible b).issued := by
  induction eligible generalizing b with
  | zero => exact h
  | succ k ih => exact ih (trySpend_inv h)

theorem runTicks_inv {maxR : Nat} (ticks : List (Nat × Nat)) {b : RestartBudget} {bound : Nat}
    (hchain : List.Chain (fun x y => x ≤ y) bound (ticks.map Prod.fst))
    (h : BudgetInv maxR bound b.issued) :
    ∀ w, windowCount w (runTicks maxR ticks b).issued ≤ maxR := by
  induction ticks generalizing b bound with
  | nil => exact h.2
  | cons tk rest ih =>
    obtain ⟨now, elig⟩ := tk
    simp only [List.map_cons] at hchain
    cases hchain with
    | cons hle hchain' =>
      exact ih hchain' (tick_inv elig (budgetInv_mono h hle))

theorem budgetInv_init (maxR : Nat) : BudgetInv maxR 0 [] :=
  ⟨fun t ht => absurd ht (List.not_mem_nil t), fun _ => Nat.zero_le _⟩

/-! ## Theorems: claims -/

/-- Claim C1: across every execution of the Restart Watchdog — any sequence of
ticks at nondecreasing times, each evaluating any number of eligible targets —
the number of restart actions issued within any one-minute window is at most
`maxRestartsPerMin`. -/
theorem restarts_in_any_window_le_max (maxRestartsPerMin : Nat)
    (ticks : List (Nat × Nat))
    (hmono : List.Chain (fun x y => x ≤ y) 0 (ticks.map Prod.fst)) (w : Nat) :
    windowCount w (runTicks maxRestartsPerMin ticks ⟨[]⟩).issued ≤ maxRestartsPerMin :=
  runTicks_inv ticks hmono (budgetInv_init maxRestartsPerMin) w

/-- Witness for C1: two ticks at times 0 and 10 with 5 and 3 eligible targets
under a budget of 2 restarts per minute issue at most 2 restarts in the window
starting at 0. -/
theorem restarts_in_any_window_le_max_witness :
    windowCount 0 (runTicks 2 [(0, 5), (10, 3)] ⟨[]⟩).issued ≤ 2 :=
  restarts_in_any_window_le_max 2 [(0, 5), (10, 3)]
    (List.Chain.cons (by omega) (List.Chain.cons (by omega) List.Chain.nil)) 0

/-! ## Theorems: certificate loader -/

theorem loadFromDisk_inv (fs : FileSystem) (r c k : String) (ch : CertChain)
    (h : LoadFromDisk fs r c k = some ch) :
    fs r = some ch.rootCert ∧ fs c = some ch.cert ∧ fs k = some ch.privateKey := by
  unfold LoadFromDisk at h
  cases hr : fs r with
  | none => simp [hr] at h
  | some br =>
    cases hc : fs c with
    | none => simp [hr, hc] at h
    | some bc =>
      cases hk : fs k with
      | none => simp [hr, hc, hk] at h
      | some bk =>
        simp only [hr, hc, hk] at h
        injection h with h2
        subst h2
        exact ⟨rfl, rfl, rfl⟩

theorem loadLoop_success_load (fsAt : Nat → FileSystem) (cr : Credentials) (deadline : Nat) :
    ∀ (events : List Nat) (now : Nat) (ch : CertChain) (t : Nat),
      (loadLoop fsAt cr deadline now events).2 = LoadOutcome.success ch t →
      LoadFromDisk (fsAt t) cr.rootCertPath cr.certPath cr.keyPath = some ch := by
  intro events
  induction events with
  | nil =>
    intro now ch t h
    cases hld : LoadFromDisk (fsAt now) cr.rootCertPath cr.certPath cr.keyPath with
    | none => simp [loadLoop, hld] at h
    | some chain =>
      simp only [loadLoop, hld] at h
      injection h with h1 h2
      subst h1
      subst h2
      exact hld
  | cons e rest ih =>
    intro now ch t h
    cases hld : LoadFromDisk (fsAt now) cr.rootCertPath cr.certPath cr.keyPath with
    | some chain =>
      simp only [loadLoop, hld] at h
      injection h with h1 h2
      subst h1
      subst h2
      exact hld
    | none =>
      simp only [loadLoop, hld] at h
      by_cases he : e < deadline
      · rw [if_pos he] at h
        exact ih e ch t h
      · rw [if_neg he] at h
        simp at h

theorem loadLoop_fatal (fsAt : Nat → FileSystem) (cr : Credentials) (deadline : Nat) :
    ∀ (events : List Nat) (now : Nat),
      LoadFromDisk (fsAt now) cr.rootCertPath cr.certPath cr.keyPath = none →
      (∀ t ∈ events, t < deadline →
        LoadFromDisk (fsAt t) cr.rootCertPath cr.certPath cr.keyPath = none) →
      (loadLoop fsAt cr deadline now events).2 = LoadOutcome.fatalTimeout deadline := by
  intro events
  induction events with
  | nil =>
    intro now h0 _
    simp [loadLoop, h0]
  | cons e rest ih =>
    intro now h0 hev
    simp only [loadLoop, h0]
    by_cases he : e < deadline
    · rw [if_pos he]
      exact ih e (hev e (List.mem_cons_self e rest) he)
        (fun t ht hlt => hev t (List.mem_cons_of_mem e ht) hlt)
    · rw [if_neg he]

theorem loadLoop_watchReleased (fsAt : Nat → FileSystem) (cr : Credentials) (deadline : Nat) :
    ∀ (events : List Nat) (now : Nat),
      watchReleased (loadLoop fsAt cr deadline now events).1 := by
  intro events
  induction events with
  | nil =>
    intro now
    cases hld : LoadFromDisk (fsAt now) cr.rootCertPath cr.certPath cr.keyPath <;>
      simp [loadLoop, hld, watchReleased]
  | cons e rest ih =>
    intro now
    cases hld : LoadFromDisk (fsAt now) cr.rootCertPath cr.certPath cr.keyPath with
    | some chain => simp [loadLoop, hld, watchReleased]
    | none =>
      by_cases he : e < deadline
      · simp only [loadLoop, hld]
        rw [if_pos he]
        rcases ih e with h | h
        · exact Or.inl (List.mem_cons_of_mem _ (List.mem_cons_of_mem _ h))
        · exact Or.inr (List.mem_cons_of_mem _ (List.mem_cons_of_mem _ h))
      · simp [loadLoop, hld, he, watchReleased]

/-- Claim C4: when the credential files never become available at an attempt
time before the deadline, the load terminates with the fatal timeout exactly
at the deadline — it neither hangs (the embedding is a total function) nor
fails earlier — and, unconditionally over all inputs, the filesystem watch is
released on return: cancelled on the success path or expired on the timeout
path. -/
theorem load_timeout_and_watch_teardown (fsAt : Nat → FileSystem) (cr : Credentials)
    (events : List Nat) (deadline : Nat)
    (h0 : LoadFromDisk (fsAt 0) cr.rootCertPath cr.certPath cr.keyPath = none)
    (hev : ∀ t ∈ events, t < deadline →
      LoadFromDisk (fsAt t) cr.rootCertPath cr.certPath cr.keyPath = none) :
    (loadCertChain fsAt cr events deadline).2 = LoadOutcome.fatalTimeout deadline ∧
    ∀ (fsAt' : Nat → FileSystem) (cr' : Credentials) (events' : List Nat) (deadline' : Nat),
      watchReleased (loadCertChain fsAt' cr' events' deadline').1 := by
  constructor
  · exact loadLoop_fatal fsAt cr deadline events 0 h0 hev
  · intro fsAt' cr' events' deadline'
    rcases loadLoop_watchReleased fsAt' cr' deadline' events' 0 with h | h
    · exact Or.inl (List.mem_cons_of_mem _ h)
    · exact Or.inr (List.mem_cons_of_mem _ h)

/-- Witness for C4: on a filesystem with no readable files and watch events at
times 10 and 20, the load fails fatally exactly at the one-minute deadline;
and on a run with the files present the watch is also released. -/
theorem load_timeout_and_watch_teardown_witness :
    (loadCertChain fsNone crDefault [10, 20] 60).2 = LoadOutcome.fatalTimeout 60 ∧
    watchReleased (loadCertChain fsAll crDefault [] 60).1 :=
  ⟨(load_timeout_and_watch_teardown fsNone crDefault [10, 20] 60 (by decide) (by decide)).1,
   (load_timeout_and_watch_teardown fsNone crDefault [10, 20] 60 (by decide) (by decide)).2
      fsAll crDefault [] 60⟩

/-- Counterexample for C5 as stated: with all three credential files readable
at call time the load does succeed on the first attempt at time 0, yet the
filesystem watch IS invoked — operator.go lines 176-189 start the watcher
goroutine unconditionally, before the first read attempt. -/
theorem watch_started_even_when_files_present :
    (loadCertChain fsAll crDefault [] 60).2 = LoadOutcome.success chainC 0 ∧
    CertAct.watchStarted ∈ (loadCertChain fsAll crDefault [] 60).1 := by
  decide

/-- Claim C5 (amended): when all three credential files are readable at call
time, loadCertChain returns that chain successfully on its first read attempt
(at time 0) and consumes no watch event, and the watch is cancelled on return;
the watch goroutine itself is nevertheless started unconditionally. -/
theorem load_success_first_attempt_no_event (fsAt : Nat → FileSystem) (cr : Credentials)
    (events : List Nat) (deadline : Nat) (chain : CertChain)
    (h : LoadFromDisk (fsAt 0) cr.rootCertPath cr.certPath cr.keyPath = some chain) :
    (loadCertChain fsAt cr events deadline).2 = LoadOutcome.success chain 0 ∧
    (∀ t, CertAct.waitEvent t ∉ (loadCertChain fsAt cr events deadline).1) ∧
    CertAct.watchCancelled ∈ (loadCertChain fsAt cr events deadline).1 := by
  have htr : loadCertChain fsAt cr events deadline =
      ([CertAct.watchStarted, CertAct.attempt 0 true, CertAct.watchCancelled],
       LoadOutcome.success chain 0) := by
    cases events <;> simp [loadCertChain, loadLoop, h]
  rw [htr]
  refine ⟨rfl, ?_, ?_⟩
  · intro t
    simp
  · simp

/-- Witness for C5 (amended): the scenario with the three files present — the
chain is returned from the first attempt at time 0 and the watch is cancelled,
even though an event would have been available at time 5. -/
theorem load_success_first_attempt_no_event_witness :
    (loadCertChain fsAll crDefault [5] 60).2 = LoadOutcome.success chainC 0 ∧
    CertAct.watchCancelled ∈ (loadCertChain fsAll crDefault [5] 60).1 :=
  ⟨(load_success_first_attempt_no_event fsAll crDefault [5] 60 chainC (by decide)).1,
   (load_success_first_attempt_no_event fsAll crDefault [5] 60 chainC (by decide)).2.2⟩

/-- Claim C3: whenever the startup run hands a chain to the blocking
apiServer.Run call, the certificate load succeeded with exactly that chain,
and the chain was produced by a LoadFromDisk call that succeeded on all three
credential paths at the success time: the API server is never handed a
partially loaded chain. -/
theorem api_server_chain_fully_loaded (env : RunEnv) (ch : CertChain)
    (h : REv.apiServerRun ch ∈ runTrace env) :
    loadedChain (certOutcome env) = some ch ∧
    env.fsAt (loadTime (certOutcome env)) env.creds.rootCertPath = some ch.rootCert ∧
    env.fsAt (loadTime (certOutcome env)) env.creds.certPath = some ch.cert ∧
    env.fsAt (loadTime (certOutcome env)) env.creds.keyPath = some ch.privateKey := by
  unfold runTrace at h
  cases hs : env.syncResult with
  | false => simp [hs] at h
  | true =>
    rw [hs] at h
    cases hc : env.configOk with
    | false => simp [hc] at h
    | true =>
      rw [hc] at h
      cases ho : certOutcome env with
      | fatalTimeout t => simp [ho, apiServerRunEvents] at h
      | success chain t =>
        rw [ho] at h
        simp [apiServerRunEvents] at h
        subst h
        have hload : LoadFromDisk (env.fsAt t) env.creds.rootCertPath env.creds.certPath
            env.creds.keyPath = some ch :=
          loadLoop_success_load env.fsAt env.creds 60 env.fsEvents 0 ch t ho
        obtain ⟨h1, h2, h3⟩ := loadFromDisk_inv _ _ _ _ _ hload
        exact ⟨rfl, h1, h2, h3⟩

/-- Witness for C3: in the environment where the files appear at time 10 and a
watch event fires at time 10, the chain handed to the API server was read in
full from the three paths at time 10. -/
theorem api_server_chain_fully_loaded_witness :
    loadedChain (certOutcome envLate) = some chainC ∧
    envLate.fsAt (loadTime (certOutcome envLate)) envLate.creds.rootCertPath =
      some chainC.rootCert ∧
    envLate.fsAt (loadTime (certOutcome envLate)) envLate.creds.certPath =
      some chainC.cert ∧
    envLate.fsAt (loadTime (certOutcome envLate)) envLate.creds.keyPath =
      some chainC.privateKey :=
  api_server_chain_fully_loaded envLate chainC (by decide)

/-! ## Theorems: the startup sequence of `operator.Run` -/

/-- Claim C6: the startup steps are strictly sequential hard gates, in every
execution class of Run — the four conjuncts are exhaustive over the sync
result, the configuration result and the two load outcomes. The manager is
started first; a failed cache sync terminates the run fatally, with no
configuration load, no certificate load and no health server start; a failed
configuration load terminates the run fatally with no certificate load, no
health server and no apiServer.Run; a certificate-load timeout terminates the
run fatally with no health server and no apiServer.Run; and when every gate
succeeds the configuration is loaded after the sync, then the certificate
chain, and only then are the health server and the blocking apiServer.Run
call started, in exactly that order. -/
theorem run_startup_sequential (env : RunEnv) :
    (env.syncResult = false →
       runTrace env = [REv.mgrStarted, REv.fatalCacheSync] ∧
       REv.configLoaded ∉ runTrace env ∧
       (∀ ch : CertChain, REv.certLoaded ch ∉ runTrace env) ∧
       REv.healthzStarted ∉ runTrace env) ∧
    (env.syncResult = true → env.configOk = false →
       runTrace env = [REv.mgrStarted, REv.cacheSynced, REv.fatalConfig] ∧
       (∀ ch : CertChain, REv.certLoaded ch ∉ runTrace env) ∧
       REv.healthzStarted ∉ runTrace env ∧
       (∀ ch : CertChain, REv.apiServerRun ch ∉ runTrace env)) ∧
    (∀ t : Nat, env.syncResult = true → env.configOk = true →
       certOutcome env = LoadOutcome.fatalTimeout t →
       runTrace env = [REv.mgrStarted, REv.cacheSynced, REv.configLoaded,
         REv.fatalCertTimeout] ∧
       (∀ ch : CertChain, REv.certLoaded ch ∉ runTrace env) ∧
       REv.healthzStarted ∉ runTrace env ∧
       (∀ ch : CertChain, REv.apiServerRun ch ∉ runTrace env)) ∧
    (∀ (ch : CertChain) (t : Nat), env.syncResult = true → env.configOk = true →
       certOutcome env = LoadOutcome.success ch t →
       runTrace env = [REv.mgrStarted, REv.cacheSynced, REv.configLoaded,
         REv.certLoaded ch, REv.healthzStarted, REv.apiServerRun ch,
         REv.apiListenersBound, REv.readyMarked]) := by
  refine ⟨?_, ?_, ?_, ?_⟩
  · intro hs
    simp [runTrace, hs]
  · intro hs hc
    simp [runTrace, hs, hc]
  · intro t hs hc ho
    simp [runTrace, hs, hc, ho, apiServerRunEvents]
  · intro ch t hs hc ho
    simp [runTrace, hs, hc, ho, apiServerRunEvents]

/-- Witness for C6: one concrete environment per execution class — failed
sync, failed configuration load, certificate-load timeout and the fully
successful strictly ordered startup sequence. -/
theorem run_startup_sequential_witness :
    runTrace envFatalSync = [REv.mgrStarted, REv.fatalCacheSync] ∧
    runTrace envFatalConfig = [REv.mgrStarted, REv.cacheSynced, REv.fatalConfig] ∧
    runTrace envCertTimeout =
      [REv.mgrStarted, REv.cacheSynced, REv.configLoaded, REv.fatalCertTimeout] ∧
    runTrace envOk = [REv.mgrStarted, REv.cacheSynced, REv.configLoaded,
      REv.certLoaded chainC, REv.healthzStarted, REv.apiServerRun chainC,
      REv.apiListenersBound, REv.readyMarked] :=
  ⟨((run_startup_sequential envFatalSync).1 rfl).1,
   ((run_startup_sequential envFatalConfig).2.1 rfl rfl).1,
   ((run_startup_sequential envCertTimeout).2.2.1 60 rfl rfl (by decide)).1,
   (run_startup_sequential envOk).2.2.2 chainC 0 rfl rfl (by decide)⟩

/-- Claim C9: readiness is marked only through the readiness callback handed
to apiServer.Run. Every prefix of the run trace that contains the readyMarked
event already contains the successful cache sync, the configuration load, the
listener bind, the certificate load and the start of the blocking
apiServer.Run call — readiness stays false until every hard gate has completed
and the API server has bound its listeners. -/
theorem ready_only_after_gates (env : RunEnv) (n : Nat)
    (h : REv.readyMarked ∈ (runTrace env).take n) :
    REv.cacheSynced ∈ (runTrace env).take n ∧
    REv.configLoaded ∈ (runTrace env).take n ∧
    REv.apiListenersBound ∈ (runTrace env).take n ∧
    ∃ ch : CertChain, REv.certLoaded ch ∈ (runTrace env).take n ∧
      REv.apiServerRun ch ∈ (runTrace env).take n := by
  cases hs : env.syncResult with
  | false =>
    exfalso
    have hmem := List.take_subset n (runTrace env) h
    simp [runTrace, hs] at hmem
  | true =>
    cases hc : env.configOk with
    | false =>
      exfalso
      have hmem := List.take_subset n (runTrace env) h
      simp [runTrace, hs, hc] at hmem
    | true =>
      cases ho : certOutcome env with
      | fatalTimeout t =>
        exfalso
        have hmem := List.take_subset n (runTrace env) h
        simp [runTrace, hs, hc, ho, apiServerRunEvents] at hmem
      | success ch t =>
        have htr : runTrace env = [REv.mgrStarted, REv.cacheSynced, REv.configLoaded,
            REv.certLoaded ch, REv.healthzStarted, REv.apiServerRun ch,
            REv.apiListenersBound, REv.readyMarked] := by
          simp [runTrace, hs, hc, ho, apiServerRunEvents]
        rw [htr] at h ⊢
        rcases n with _ | _ | _ | _ | _ | _ | _ | _ | m
        · simp at h
        · simp at h
        · simp at h
        · simp at h
        · simp at h
        · simp at h
        · simp at h
        · simp at h
        · refine ⟨by simp, by simp, by simp, ch, by simp, by simp⟩

/-- Witness for C9: a prefix of the successful startup trace containing the
ready mark also contains the cache sync, the configuration load and the
listener bind. -/
theorem ready_only_after_gates_witness :
    REv.cacheSynced ∈ (runTrace envOk).take 8 ∧
    REv.configLoaded ∈ (runTrace envOk).take 8 ∧
    REv.apiListenersBound ∈ (runTrace envOk).take 8 :=
  ⟨(ready_only_after_gates envOk 8 (by decide)).1,
   (ready_only_after_gates envOk 8 (by decide)).2.1,
   (ready_only_after_gates envOk 8 (by decide)).2.2.1⟩

/-! ## Theorems: change notifier and informer interleaving -/

/-- Counterexample for C2 as stated: an interleaving in which the informer
dispatch thread delivers an add callback for a component after the manager has
been started but before WaitForCacheSync has returned — OnComponentUpdated is
invoked with afterSyncReturned recorded as false. Nothing in operator.Run
serializes handler dispatch after the sync wait: the handler is registered in
NewOperator before the manager starts, and the dispatch thread of the cache
runs concurrently with the goroutine blocked in WaitForCacheSync. -/
theorem callback_fires_before_sync_cex :
    execSys initState [SysAct.startMgr, SysAct.deliverAdd (CbObj.component compC)] =
      some { pc := RunPC.waitingSync, mgrStarted := true, cacheSynced := false,
             deliveries := [{ comp := compC, afterSyncReturned := false }] } := by
  decide

theorem execSys_no_mgr_no_delivery (acts : List SysAct) :
    ∀ s s' : SysState, execSys s acts = some s' → SysAct.startMgr ∉ acts →
      s.mgrStarted = false → s.deliveries = [] →
      s'.mgrStarted = false ∧ s'.deliveries = [] := by
  induction acts with
  | nil =>
    intro s s' hex _ hm hd
    simp [execSys] at hex
    subst hex
    exact ⟨hm, hd⟩
  | cons a rest ih =>
    intro s s' hex hmem hm hd
    have hrest : SysAct.startMgr ∉ rest := fun h2 => hmem (List.mem_cons_of_mem a h2)
    cases a with
    | startMgr => exact absurd (List.mem_cons_self _ _) hmem
    | syncCompletes =>
      simp [execSys, stepSys, hm] at hex
    | syncReturns =>
      by_cases hg : s.pc = RunPC.waitingSync ∧ s.cacheSynced = true
      · simp only [execSys, stepSys, if_pos hg] at hex
        exact ih _ s' hex hrest hm hd
      · simp [execSys, stepSys, if_neg hg] at hex
    | deliverAdd obj =>
      simp [execSys, stepSys, hm] at hex

/-- Claim C2 (amended): in every interleaved execution from the initial state,
a recorded OnComponentUpdated delivery implies that the manager — and with it
the cache machinery — had been started: no callback fires before mgr.Start.
The claim as frozen, that no callback fires before WaitForCacheSync has
returned true, is refuted by the counterexample interleaving. -/
theorem callback_only_after_mgr_started (acts : List SysAct) (s' : SysState)
    (hex : execSys initState acts = some s') (hne : s'.deliveries ≠ []) :
    SysAct.startMgr ∈ acts := by
  by_contra hnot
  exact hne (execSys_no_mgr_no_delivery acts initState s' hex hnot rfl rfl).2

/-- Witness for C2 (amended): a full interleaving that records a delivery
necessarily contains the manager start action. -/
theorem callback_only_after_mgr_started_witness :
    SysAct.startMgr ∈ [SysAct.startMgr, SysAct.syncCompletes, SysAct.syncReturns,
      SysAct.deliverAdd (CbObj.component compC)] :=
  callback_only_after_mgr_started
    [SysAct.startMgr, SysAct.syncCompletes, SysAct.syncReturns,
     SysAct.deliverAdd (CbObj.component compC)]
    { pc := RunPC.afterSync, mgrStarted := true, cacheSynced := true,
      deliveries := [{ comp := compC, afterSyncReturned := true }] }
    (by decide) (by decide)

/-- Counterexample for C8 as stated: a type-mismatched callback payload is
dropped with NO log entry — syncComponent produces no action at all, because
the if-statement over the type assertion has no else branch. The claim is
right that the payload is dropped without crashing, wrong that a log entry is
written. -/
theorem mismatched_payload_no_log :
    syncComponent (CbObj.otherKind "Pod") = [] := rfl

/-- Claim C8 (amended): syncComponent calls OnComponentUpdated exactly when
the payload is a well-typed Component, and with exactly that component; a
type-mismatched payload produces no action at all — it is dropped silently
without even a log entry — and the embedding is a total function: the
two-valued type assertion never panics, so the process is never aborted. -/
theorem syncComponent_typed_exactly (obj : CbObj) :
    (∀ c : Component, NotifyAct.onComponentUpdated c ∈ syncComponent obj ↔
       obj = CbObj.component c) ∧
    ∀ kind : String, obj = CbObj.otherKind kind → syncComponent obj = [] := by
  cases obj with
  | component c =>
    constructor
    · intro c'
      simp [syncComponent, eq_comm]
    · intro kind hk
      exact absurd hk (by simp)
  | otherKind k =>
    constructor
    · intro c'
      simp [syncComponent]
    · intro kind _
      rfl

/-- Witness for C8 (amended): a well-typed component is forwarded; a payload
of another kind produces no action. -/
theorem syncComponent_typed_exactly_witness :
    NotifyAct.onComponentUpdated compC ∈ syncComponent (CbObj.component compC) ∧
    syncComponent (CbObj.otherKind "ConfigMap") = [] :=
  ⟨((syncComponent_typed_exactly (CbObj.component compC)).1 compC).mpr rfl,
   (syncComponent_typed_exactly (CbObj.otherKind "ConfigMap")).2 "ConfigMap" rfl⟩

/-- Claim C10: the notification forwarded on an update event depends only on
the new object — the UpdateFunc registered in NewOperator never reads the old
object, so two update events with the same new object and different old
objects produce identical calls. -/
theorem updateFunc_ignores_old (old1 old2 newObj : CbObj) :
    updateFunc old1 newObj = updateFunc old2 newObj := rfl

/-! ## Theorems: NewOperator and the watchdog leader-election override -/

/-- Claim C7 (code bug, evaluated at the failing input): with the watchdog
enabled and leader election disabled, NewOperator emits the warning claiming
leadership election is forcibly enabled, yet constructs the manager with
leader election still disabled — nothing is overridden. The watchdog runnable
requires leadership, but with the manager election disabled controller-runtime
treats the process as already elected, so the watchdog is not effectively
gated by leader election, contrary to the claim and to the warning text of
the code itself. -/
theorem watchdog_election_not_forced :
    (newOperator failingOpts).warnings =
      ["Leadership election is forcibly enabled when the Dapr Watchdog is enabled"] ∧
    (newOperator failingOpts).mgrOptions.leaderElection = false ∧
    watchdogElectionGated (newOperator failingOpts) = false :=
  ⟨rfl, rfl, rfl⟩

end DaprOperator
